import Mathlib

/-!
Shallow embedding of `src/main.py` (email-unsub): an email scanner that
collects unsubscribe hyperlinks from HTML message bodies and visits them
over HTTP with a bounded retry policy.

Conventions of the embedding:
* BeautifulSoup's view of an HTML document is abstracted to the ordered
  list of its anchor (`<a>`) elements, each carrying an optional `href`
  attribute (`none` models an anchor with no `href` attribute).
* Python's `str.lower` is modelled character-wise (`lowerStr`); the `in`
  substring test is modelled by `containsSub`.
* urllib3's `Retry(total = retries, status_forcelist = [...])` is modelled
  by `runRetry`: `total` counts *retries*, so a fresh counter of `n`
  admits `n + 1` HTTP attempts; when a retryable status or a network error
  occurs with the counter exhausted, `MaxRetryError` is raised, which
  `requests` surfaces as a `RequestException` (caught in `access_links`).
  An attempt's observable result is abstracted to either a network error
  or the final status code `requests` returns for the link.
* The `email` message tree is `Msg`: a leaf part carries a content type
  and a payload; a container carries a content type and its sub-parts.
  `Payload.anchors` is the anchor list BeautifulSoup extracts from the
  part's `get_payload(decode=True)` bytes; `Payload.decodeOk` records
  whether Python's `bytes.decode()` (strict UTF-8, used only in the
  single-part branch) succeeds. A raising call is modelled by `none`.
* The IMAP mailbox is a record of the search outcome and a fetch map;
  `fetch = none` models a fetch failure (caught inside `_fetch_email_data`,
  which returns `None`). The `try/finally` of `find_unsubscribe_links` is
  modelled by pairing the body's result with the number of `logout` calls
  performed on that control path.
-/

/-- An anchor element of a parsed HTML document; `href = none` models an
anchor tag carrying no `href` attribute. -/
structure Anchor where
  href : Option String
deriving DecidableEq

/-- Character-list test: does `ns` occur at the head of `hs`? -/
def startsWithChars : List Char → List Char → Bool
  | [], _ => true
  | _ :: _, [] => false
  | c :: cs, d :: ds => c == d && startsWithChars cs ds

/-- Character-list substring test, scanning every suffix of the haystack. -/
def hasSubChars (needle : List Char) : List Char → Bool
  | [] => needle.isEmpty
  | d :: ds => startsWithChars needle (d :: ds) || hasSubChars needle ds

/-- Python's `needle in hay` substring test on strings. -/
def containsSub (needle hay : String) : Bool :=
  hasSubChars needle.toList hay.toList

/-- Python's `str.lower`, character-wise. -/
def lowerStr (s : String) : String :=
  String.mk (s.data.map Char.toLower)

/-- `soup.find_all('a', href=True)`: the anchors that carry an `href`
attribute, in document order. -/
def find_all_a_href (doc : List Anchor) : List Anchor :=
  doc.filter (fun a => a.href.isSome)

/-- `EmailProcessor._parse_html_for_links` (src/main.py:48-51):
`[link['href'] for link in soup.find_all('a', href=True)
  if "unsubscribe" in link["href"].lower()]`. -/
def parse_html_for_links (doc : List Anchor) : List String :=
  (find_all_a_href doc).filterMap (fun a =>
    match a.href with
    | some h => if containsSub "unsubscribe" (lowerStr h) then some h else none
    | none => none)

/-- The spec's description of scanning: exactly the `href` values of
anchors that have a non-empty `href` whose lowercase form contains
"unsubscribe", in document order. Stated from the spec's words, to be
compared with `parse_html_for_links`. -/
def specUnsubscribeLinks (doc : List Anchor) : List String :=
  doc.filterMap (fun a =>
    match a.href with
    | some h =>
        if h ≠ "" ∧ containsSub "unsubscribe" (lowerStr h) = true then some h
        else none
    | none => none)

/-- Result of one HTTP attempt on a link: a network/connection error, or a
response with the status code `requests` reports for the link. -/
inductive AttemptResult where
  | status (code : Nat)
  | netErr
deriving DecidableEq

/-- What `session.get` produces after urllib3's retry loop: a response, or
a raised `MaxRetryError` (surfaced as a `RequestException`). -/
inductive GetResult where
  | response (code : Nat)
  | maxRetryError
deriving DecidableEq

/-- `status_forcelist=[429, 500, 502, 503, 504]` (src/main.py:97). -/
def status_forcelist : List Nat := [429, 500, 502, 503, 504]

/-- urllib3's `Retry` loop for one link. `respond n` is the result of the
`n`-th attempt (0-based); `total` is the remaining retry budget. A
retryable status or a network error decrements `total`; when the budget
is already exhausted the counter would drop below zero, so `MaxRetryError`
is raised (default `raise_on_status=True`). A non-retryable status is
returned as the response. The second component counts attempts issued. -/
def runRetry (respond : Nat → AttemptResult) : Nat → Nat → GetResult × Nat
  | total, attempt =>
    match respond attempt with
    | .status c =>
      if status_forcelist.contains c then
        match total with
        | 0 => (.maxRetryError, attempt + 1)
        | t + 1 => runRetry respond t (attempt + 1)
      else (.response c, attempt + 1)
    | .netErr =>
      match total with
      | 0 => (.maxRetryError, attempt + 1)
      | t + 1 => runRetry respond t (attempt + 1)

/-- Per-link outcome as logged by `access_links` (src/main.py:104-114):
status 200 logs success, any other returned status logs an HTTP failure
with that code, and a raised `RequestException` logs a request error. -/
inductive Outcome where
  | success
  | httpFailure (code : Nat)
  | requestError
deriving DecidableEq

/-- One iteration of the `access_links` loop body for a single link:
`session.get` with the session's retry configuration, then the
status-code check, with `RequestException` caught. Also returns the
number of HTTP attempts issued for the link. -/
def visitLink (respond : Nat → AttemptResult) (retries : Nat) : Outcome × Nat :=
  match runRetry respond retries 0 with
  | (.response c, n) => (if c == 200 then .success else .httpFailure c, n)
  | (.maxRetryError, n) => (.requestError, n)

/-- `LinkHandler.access_links` (src/main.py:104-114): visit each link in
order; each link is abstracted by its attempt-result function. The
returned list is the sequence of logged per-link outcomes. -/
def access_links (retries : Nat) : List (Nat → AttemptResult) → List Outcome
  | [] => []
  | r :: rest => (visitLink r retries).1 :: access_links retries rest

/-- Payload of a leaf message part. `anchors` is the anchor list
BeautifulSoup produces from the part's `get_payload(decode=True)` bytes;
`decodeOk` records whether strict-UTF-8 `bytes.decode()` succeeds on
those bytes. -/
structure Payload where
  anchors : List Anchor
  decodeOk : Bool
deriving DecidableEq

/-- An `email.message.Message`: either a leaf part (content type plus
payload) or a multipart container (content type plus ordered sub-parts).
`is_multipart()` holds exactly for `multi`. -/
inductive Msg where
  | leaf (contentType : String) (payload : Payload)
  | multi (contentType : String) (parts : List Msg)

/-- `msg.get_content_type()`. -/
def Msg.get_content_type : Msg → String
  | .leaf ct _ => ct
  | .multi ct _ => ct

/-- `part.get_payload(decode=True)` fed to BeautifulSoup, for parts met
during `walk`: a leaf yields its bytes (abstracted to the anchor list);
a multipart container yields Python `None`, on which BeautifulSoup would
raise — modelled as `none`. -/
def Msg.payloadAnchors : Msg → Option (List Anchor)
  | .leaf _ p => some p.anchors
  | .multi _ _ => none

mutual
/-- `msg.walk()`: depth-first pre-order traversal, yielding the node
itself and then every descendant of each sub-part in order. -/
def walk : Msg → List Msg
  | .leaf ct p => [.leaf ct p]
  | .multi ct parts => .multi ct parts :: walkList parts

/-- Traversal of a list of sibling parts, concatenating their walks. -/
def walkList : List Msg → List Msg
  | [] => []
  | m :: ms => walk m ++ walkList ms
end

/-- The loop body of the multipart branch of
`EmailProcessor._extract_links_from_email` (src/main.py:74-78), fused
over the walked part list: parts with content type `text/html` have
their payload parsed and their links appended; `none` propagates the
exception BeautifulSoup would raise on a `None` payload. -/
def collectHtmlParts : List Msg → Option (List String)
  | [] => some []
  | m :: ms =>
    if m.get_content_type = "text/html" then
      match m.payloadAnchors with
      | none => none
      | some doc =>
        match collectHtmlParts ms with
        | none => none
        | some rest => some (parse_html_for_links doc ++ rest)
    else collectHtmlParts ms

/-- `EmailProcessor._extract_links_from_email` (src/main.py:71-83).
Multipart: walk all parts and harvest each `text/html` one. Single part:
`msg.get_payload(decode=True).decode()` runs FIRST — a failing decode
raises (`none`) before the content type is even consulted — then links
are parsed only when the content type is `text/html`. -/
def extract_links_from_email : Msg → Option (List String)
  | .multi ct parts => collectHtmlParts (walk (.multi ct parts))
  | .leaf ct p =>
    if p.decodeOk then
      some (if ct = "text/html" then parse_html_for_links p.anchors else [])
    else none

mutual
/-- The anchor documents of the `text/html` leaves of a message, in
pre-order (the order `walk` meets them). -/
def htmlLeafDocs : Msg → List (List Anchor)
  | .leaf ct p => if ct = "text/html" then [p.anchors] else []
  | .multi _ parts => htmlLeafDocsList parts

/-- `htmlLeafDocs` over sibling lists. -/
def htmlLeafDocsList : List Msg → List (List Anchor)
  | [] => []
  | m :: ms => htmlLeafDocs m ++ htmlLeafDocsList ms
end

mutual
/-- Well-formedness invariant guaranteed by Python's `email` parser: a
node with `is_multipart()` true has a `multipart/*` (or `message/*`)
content type, never `text/html`. -/
def noHtmlContainer : Msg → Bool
  | .leaf _ _ => true
  | .multi ct parts => (!(ct == "text/html")) && noHtmlContainerList parts

/-- `noHtmlContainer` over sibling lists. -/
def noHtmlContainerList : List Msg → Bool
  | [] => true
  | m :: ms => noHtmlContainer m && noHtmlContainerList ms
end

/-- One extraction run paired with the message it leaves behind: the
source reads the message tree but never mutates it. -/
def extractRun (m : Msg) : Option (List String) × Msg :=
  (extract_links_from_email m, m)

/-- Two sequential extraction runs, the second consuming the message as
the first run left it. -/
def extractTwice (m : Msg) : Option (List String) × Option (List String) :=
  ((extractRun m).1, (extractRun (extractRun m).2).1)

/-- The IMAP mailbox as `find_unsubscribe_links` sees it: the outcome of
`search` (which may raise), and per-identifier fetch results, where
`none` models a fetch failure (caught inside `_fetch_email_data`, which
logs and returns `None`). -/
structure Mailbox where
  searchResult : Except String (List String)
  fetch : String → Option Msg

/-- The unrecoverable errors that can escape the scan's `try` body. -/
inductive ScanError where
  | searchFailed (e : String)
  | extractError
deriving DecidableEq

/-- The identifier loop of `find_unsubscribe_links` (src/main.py:60-63):
a failed fetch is skipped; a raising extraction aborts the loop and
propagates (`none`). -/
def processIds (mb : Mailbox) : List String → Option (List String)
  | [] => some []
  | id :: rest =>
    match mb.fetch id with
    | none => processIds mb rest
    | some msg =>
      match extract_links_from_email msg with
      | none => none
      | some links =>
        match processIds mb rest with
        | none => none
        | some more => some (links ++ more)

/-- `EmailProcessor.find_unsubscribe_links` (src/main.py:53-69). The
second component counts the `logout` calls performed on the taken
control path: the `finally` block runs `self.mail.logout()` exactly once
whether the body returns normally or raises. -/
def find_unsubscribe_links (mb : Mailbox) : Except ScanError (List String) × Nat :=
  match mb.searchResult with
  | .error e => (.error (.searchFailed e), 1)
  | .ok ids =>
    match processIds mb ids with
    | none => (.error .extractError, 1)
    | some links => (.ok links, 1)

/-- The links contributed by one identifier: none when its fetch failed,
otherwise the links extracted from the fetched message. -/
def linksOfId (mb : Mailbox) (id : String) : List String :=
  match mb.fetch id with
  | none => []
  | some m => (extract_links_from_email m).getD []

/-- A link whose server answers 503 on every attempt. -/
def always503 : Nat → AttemptResult := fun _ => AttemptResult.status 503

/-- A link whose server answers 200 on every attempt (in particular the
first). -/
def first200 : Nat → AttemptResult := fun _ => AttemptResult.status 200

/-- A link whose server answers 404 on every attempt. -/
def always404 : Nat → AttemptResult := fun _ => AttemptResult.status 404

/-- Concrete single-part HTML message holding one unsubscribe link. -/
def msgA : Msg :=
  Msg.leaf "text/html" ⟨[⟨some "https://x.com/unsubscribe?u=1"⟩], true⟩

/-- Concrete single-part HTML message holding one non-matching link and
one upper-case unsubscribe link. -/
def msgB : Msg :=
  Msg.leaf "text/html"
    ⟨[⟨some "https://x.com/stay"⟩, ⟨some "https://x.com/UNSUBSCRIBE"⟩], true⟩

/-- Concrete mailbox: the search yields identifiers "1", "2", "3"; the
fetches of "1" and "2" succeed, the fetch of "3" fails. -/
def mbW : Mailbox where
  searchResult := Except.ok ["1", "2", "3"]
  fetch := fun id =>
    if id = "1" then some msgA else if id = "2" then some msgB else none

/-- Concrete multipart message nesting a multipart container, with two
nested HTML leaves. -/
def nestedMsg : Msg :=
  Msg.multi "multipart/mixed"
    [ Msg.leaf "text/plain" ⟨[], true⟩
    , Msg.multi "multipart/alternative"
        [ Msg.leaf "text/html" ⟨[⟨some "https://x.com/stay"⟩], true⟩
        , Msg.leaf "text/html" ⟨[⟨some "https://x.com/UNSUBSCRIBE"⟩], true⟩ ] ]

/-! ## Theorems -/

/-- An href whose lowercase form contains "unsubscribe" is non-empty. -/
theorem containsSub_ne_empty (h : String)
    (hc : containsSub "unsubscribe" (lowerStr h) = true) : h ≠ "" := by
  intro he
  subst he
  exact absurd hc (by decide)

/-- C2. Link extraction returns exactly the href values of anchors that
have a non-empty href whose lowercased form contains "unsubscribe", in
document order; anchors without an href, and anchors whose href lacks
the substring, are never returned: `_parse_html_for_links` coincides
with the spec's characterisation. -/
theorem parse_html_matches_spec (doc : List Anchor) :
    parse_html_for_links doc = specUnsubscribeLinks doc := by
  induction doc with
  | nil => rfl
  | cons a rest ih =>
    simp only [parse_html_for_links, find_all_a_href] at ih ⊢
    simp only [specUnsubscribeLinks] at ih ⊢
    cases ha : a.href with
    | none =>
      simp [List.filter_cons, List.filterMap_cons, ha, ih]
    | some h =>
      cases hc : containsSub "unsubscribe" (lowerStr h) with
      | true =>
        have hne : h ≠ "" := containsSub_ne_empty h hc
        simp [List.filter_cons, List.filterMap_cons, ha, hc, hne, ih]
      | false =>
        simp [List.filter_cons, List.filterMap_cons, ha, hc, ih]

/-- C1 counterexample. A link answering 503 on every attempt, visited
with the code's retry count 3, does NOT issue 3 attempts and does NOT
end in HTTPFailure(503): urllib3's `total=3` admits a fourth attempt,
and exhaustion raises a `RequestException` instead of returning the 503
response. -/
theorem retry_503_claim_false :
    (visitLink always503 3).2 ≠ 3 ∧
      (visitLink always503 3).1 ≠ Outcome.httpFailure 503 := by
  decide

/-- C1 (amended). With the code's retry configuration `retries = 3`
(urllib3 `Retry(total=3)`), a link answering 503 on every attempt issues
exactly 4 HTTP attempts (1 initial + 3 retries) and the terminal outcome
is a caught retry-exhaustion `RequestException`, logged as an error; a
link answering 200 on the first attempt issues exactly 1 attempt and the
outcome is Success. -/
theorem retry_exhaustion_and_success_first_attempt :
    (∀ respond : Nat → AttemptResult, (∀ n, respond n = .status 503) →
        visitLink respond 3 = (Outcome.requestError, 4)) ∧
      (∀ respond : Nat → AttemptResult, respond 0 = .status 200 →
        visitLink respond 3 = (Outcome.success, 1)) := by
  constructor
  · intro respond h
    have e : respond = always503 := funext h
    subst e
    decide
  · intro respond h
    simp [visitLink, runRetry, h, status_forcelist]

/-- C1 witness: the amended theorem applied to the concrete links
`always503` and `first200`. -/
theorem retry_exhaustion_and_success_first_attempt_witness :
    (∀ n : Nat, always503 n = AttemptResult.status 503) ∧
      first200 0 = AttemptResult.status 200 ∧
      visitLink always503 3 = (Outcome.requestError, 4) ∧
      visitLink first200 3 = (Outcome.success, 1) :=
  ⟨fun _ => rfl, rfl,
    retry_exhaustion_and_success_first_attempt.1 always503 (fun _ => rfl),
    retry_exhaustion_and_success_first_attempt.2 first200 rfl⟩

/-- C6. Visiting a list of links yields one outcome per input link, in
input order, and the outcome at each position depends only on that
position's link — a terminal failure on one link never raises out of
`access_links` (the per-link `try` catches `RequestException`) and never
short-circuits the remaining links. -/
theorem access_links_one_outcome_per_link (retries : Nat)
    (rs : List (Nat → AttemptResult)) :
    (access_links retries rs).length = rs.length ∧
      ∀ i : Nat, (access_links retries rs)[i]? =
        (rs[i]?).map (fun r => (visitLink r retries).1) := by
  induction rs with
  | nil => exact ⟨rfl, fun i => by simp [access_links]⟩
  | cons r rest ih =>
    refine ⟨by simp [access_links, ih.1], fun i => ?_⟩
    cases i with
    | zero => simp [access_links]
    | succ j => simpa [access_links] using ih.2 j

/-- C7. A first-attempt status outside the retryable set
{429, 500, 502, 503, 504} and different from 200 (e.g. 404) ends the
visit after exactly 1 attempt with outcome HTTPFailure(code), for every
retry budget; and Success is only ever recorded when the returned
response has status 200. -/
theorem non_retryable_status_single_attempt :
    (∀ (respond : Nat → AttemptResult) (c retries : Nat),
        respond 0 = .status c → status_forcelist.contains c = false →
        c ≠ 200 → visitLink respond retries = (Outcome.httpFailure c, 1)) ∧
      (∀ (respond : Nat → AttemptResult) (retries : Nat),
        (visitLink respond retries).1 = Outcome.success →
        (runRetry respond retries 0).1 = GetResult.response 200) := by
  constructor
  · intro respond c retries h0 hc hne
    have hmem : c ∉ status_forcelist := by simpa using hc
    cases retries <;> simp [visitLink, runRetry, h0, hmem, hne]
  · intro respond retries h
    rcases hr : runRetry respond retries 0 with ⟨res, n⟩
    cases res with
    | response c =>
      by_cases h200 : c == 200
      · simp only [beq_iff_eq] at h200
        subst h200
        rfl
      · exact absurd h (by simp [visitLink, hr, h200])
    | maxRetryError => exact absurd h (by simp [visitLink, hr])

/-- C7 witness: the theorem applied to the concrete 404 link (any retry
budget, here 5) and, for the Success direction, to the concrete 200
link. -/
theorem non_retryable_status_single_attempt_witness :
    always404 0 = AttemptResult.status 404 ∧
      status_forcelist.contains 404 = false ∧
      (404 : Nat) ≠ 200 ∧
      visitLink always404 5 = (Outcome.httpFailure 404, 1) ∧
      (visitLink first200 2).1 = Outcome.success ∧
      (runRetry first200 2 0).1 = GetResult.response 200 :=
  ⟨rfl, by decide, by decide,
    non_retryable_status_single_attempt.1 always404 404 5 rfl (by decide)
      (by decide),
    by decide,
    non_retryable_status_single_attempt.2 first200 2 (by decide)⟩

/-- Harvesting over a concatenation of part lists splits into harvesting
each half, with an exception (`none`) in either half propagating. -/
theorem collectHtmlParts_append (xs ys : List Msg) :
    collectHtmlParts (xs ++ ys) =
      (collectHtmlParts xs).bind
        (fun a => (collectHtmlParts ys).map (fun b => a ++ b)) := by
  induction xs with
  | nil => cases hys : collectHtmlParts ys <;> simp [collectHtmlParts, hys]
  | cons m ms ih =>
    by_cases hct : m.get_content_type = "text/html"
    · cases hpa : m.payloadAnchors with
      | none => simp [collectHtmlParts, hct, hpa]
      | some doc =>
        cases hms : collectHtmlParts ms with
        | none =>
          simp only [List.cons_append, collectHtmlParts, hct, hpa, hms,
            if_pos hct] at ih ⊢
          simp [ih]
        | some a =>
          cases hys : collectHtmlParts ys with
          | none =>
            simp only [List.cons_append, collectHtmlParts, hct, hpa, hms,
              hys, if_pos hct] at ih ⊢
            simp [ih]
          | some b =>
            simp only [List.cons_append, collectHtmlParts, hct, hpa, hms,
              hys, if_pos hct] at ih ⊢
            simp [ih]
    · simp [collectHtmlParts, hct, ih]

mutual
/-- Under the parser invariant that containers are never `text/html`,
walking a message and harvesting its HTML parts never raises and yields
the parses of its HTML leaves in pre-order. -/
theorem collect_walk_eq (m : Msg) (h : noHtmlContainer m = true) :
    collectHtmlParts (walk m) =
      some (((htmlLeafDocs m).map parse_html_for_links).flatten) := by
  cases m with
  | leaf ct p =>
    by_cases hct : ct = "text/html" <;>
      simp [walk, collectHtmlParts, htmlLeafDocs, Msg.get_content_type,
        Msg.payloadAnchors, hct]
  | multi ct parts =>
    simp only [noHtmlContainer, Bool.and_eq_true, Bool.not_eq_true',
      beq_eq_false_iff_ne, ne_eq] at h
    simp [walk, collectHtmlParts, Msg.get_content_type, h.1, htmlLeafDocs,
      collect_walkList_eq parts h.2]

/-- `collect_walk_eq` for a list of sibling parts. -/
theorem collect_walkList_eq (ms : List Msg)
    (h : noHtmlContainerList ms = true) :
    collectHtmlParts (walkList ms) =
      some (((htmlLeafDocsList ms).map parse_html_for_links).flatten) := by
  cases ms with
  | nil => simp [walkList, collectHtmlParts, htmlLeafDocsList]
  | cons m rest =>
    simp only [noHtmlContainerList, Bool.and_eq_true] at h
    simp [walkList, collectHtmlParts_append, htmlLeafDocsList,
      collect_walk_eq m h.1, collect_walkList_eq rest h.2]
end

/-- C8. For every multipart message — containers nesting containers to
any depth, subject to the parser invariant that a container is never
itself labelled `text/html` — extraction harvests exactly the links of
every nested `text/html` leaf, in traversal order; when the message has
no HTML leaf the result is the empty sequence. -/
theorem multipart_nested_html_extraction (ct : String) (parts : List Msg)
    (h : noHtmlContainer (Msg.multi ct parts) = true) :
    extract_links_from_email (Msg.multi ct parts) =
      some (((htmlLeafDocs (Msg.multi ct parts)).map
        parse_html_for_links).flatten) ∧
      (htmlLeafDocs (Msg.multi ct parts) = [] →
        extract_links_from_email (Msg.multi ct parts) = some []) := by
  have h1 : extract_links_from_email (Msg.multi ct parts) =
      some (((htmlLeafDocs (Msg.multi ct parts)).map
        parse_html_for_links).flatten) := by
    simpa [extract_links_from_email] using
      collect_walk_eq (Msg.multi ct parts) h
  refine ⟨h1, fun he => ?_⟩
  rw [h1, he]
  rfl

/-- C8 witness: the theorem applied to the concrete doubly-nested
message `nestedMsg`. -/
theorem multipart_nested_html_extraction_witness :
    noHtmlContainer nestedMsg = true ∧
      extract_links_from_email nestedMsg =
        some (((htmlLeafDocs nestedMsg).map parse_html_for_links).flatten) := by
  have h : noHtmlContainer nestedMsg = true := by decide
  exact ⟨h, (multipart_nested_html_extraction "multipart/mixed" _ h).1⟩

/-- C3. Evaluation of the code at the failing input: a single-part
message whose payload bytes do not decode makes extraction raise
(modelled `none`) instead of skipping the part and returning the links
of the remaining parts (the empty sequence here) — the code contradicts
the spec's mandated skip-and-continue behaviour. -/
theorem single_part_decode_failure_aborts :
    extract_links_from_email (Msg.leaf "image/png" ⟨[], false⟩) = none := rfl

/-- C9. Extraction is a pure transformation: running it twice on the
same message yields two identical results, and a run hands the message
on unchanged. -/
theorem extract_links_pure_idempotent (m : Msg) :
    (extractTwice m).1 = (extractTwice m).2 ∧ (extractRun m).2 = m :=
  ⟨rfl, rfl⟩

/-- C10. In the single-part branch the payload is decoded before the
content type is consulted, so a single-part message of ANY content type
whose payload bytes do not decode makes extraction raise (`none`)
rather than return a link sequence. -/
theorem single_part_decode_before_type_check (ct : String) (p : Payload)
    (h : p.decodeOk = false) :
    extract_links_from_email (Msg.leaf ct p) = none := by
  simp [extract_links_from_email, h]

/-- C10 witness: a non-HTML single-part message with a failing decode. -/
theorem single_part_decode_before_type_check_witness :
    Payload.decodeOk ⟨[], false⟩ = false ∧
      extract_links_from_email (Msg.leaf "text/plain" ⟨[], false⟩) = none :=
  ⟨rfl, single_part_decode_before_type_check "text/plain" ⟨[], false⟩ rfl⟩

/-- C4. Every run of the scan logs out of the mailbox session exactly
once: on the normal return path, and on the paths where the search or an
extraction raises after the scan has started (the `finally` block). -/
theorem scan_logout_exactly_once (mb : Mailbox) :
    (find_unsubscribe_links mb).2 = 1 := by
  cases hs : mb.searchResult with
  | error e => simp [find_unsubscribe_links, hs]
  | ok ids =>
    cases hp : processIds mb ids with
    | none => simp [find_unsubscribe_links, hs, hp]
    | some links => simp [find_unsubscribe_links, hs, hp]

/-- When every successfully fetched message extracts without raising,
the identifier loop returns exactly the per-identifier links in
identifier order, skipping failed fetches. -/
theorem processIds_eq_flatMap (mb : Mailbox) (ids : List String)
    (hx : ∀ id, id ∈ ids → ∀ m, mb.fetch id = some m →
      extract_links_from_email m ≠ none) :
    processIds mb ids = some (ids.flatMap (linksOfId mb)) := by
  induction ids with
  | nil => simp [processIds]
  | cons id rest ih =>
    have hrest := ih (fun i hi m hm => hx i (List.mem_cons_of_mem _ hi) m hm)
    cases hf : mb.fetch id with
    | none => simp [processIds, hf, hrest, linksOfId]
    | some m =>
      have hm := hx id (List.mem_cons_self _ _) m hf
      cases he : extract_links_from_email m with
      | none => exact absurd he hm
      | some links => simp [processIds, hf, he, hrest, linksOfId]

/-- C5. If the mailbox search yields `ids` and every message that is
successfully fetched extracts without raising, then a failed fetch of
an identifier is skipped, the scan continues, and the returned sequence
is exactly the concatenation, in identifier order, of the links of the
successfully fetched messages. -/
theorem fetch_failure_skipped_links_in_order (mb : Mailbox)
    (ids : List String) (hs : mb.searchResult = Except.ok ids)
    (hx : ∀ id, id ∈ ids → ∀ m, mb.fetch id = some m →
      extract_links_from_email m ≠ none) :
    (find_unsubscribe_links mb).1 =
      Except.ok (ids.flatMap (linksOfId mb)) := by
  simp [find_unsubscribe_links, hs, processIds_eq_flatMap mb ids hx]

/-- C5 witness: the theorem applied to the concrete mailbox `mbW`, whose
fetch of identifier "3" fails while "1" and "2" succeed. -/
theorem fetch_failure_skipped_links_in_order_witness :
    mbW.searchResult = Except.ok ["1", "2", "3"] ∧
      (∀ id, id ∈ (["1", "2", "3"] : List String) → ∀ m,
        mbW.fetch id = some m → extract_links_from_email m ≠ none) ∧
      (find_unsubscribe_links mbW).1 =
        Except.ok ((["1", "2", "3"] : List String).flatMap (linksOfId mbW)) := by
  have hx : ∀ id, id ∈ (["1", "2", "3"] : List String) → ∀ m,
      mbW.fetch id = some m → extract_links_from_email m ≠ none := by
    intro id hid m hm
    simp only [List.mem_cons, List.not_mem_nil, or_false] at hid
    rcases hid with rfl | rfl | rfl
    · rw [show mbW.fetch "1" = some msgA from rfl] at hm
      cases hm
      decide
    · rw [show mbW.fetch "2" = some msgB from rfl] at hm
      cases hm
      decide
    · rw [show mbW.fetch "3" = none from rfl] at hm
      exact Option.noConfusion hm
  exact ⟨rfl, hx, fetch_failure_skipped_links_in_order mbW _ rfl hx⟩
